import Mathlib

/-!
# Verification of the résumé-analysis core

A shallow embedding of `app/services/resume_analyzer.py` (class
`ResumeAnalyzer`): document-text extraction dispatch, skill/experience
signal extraction (including a small backtracking regular-expression
engine mirroring Python `re.findall` on the concrete patterns used by the
source), the similarity scorer with its Jaccard fallback, and the match
engine.  Texts are modelled as `List Char`, Python floats as `ℚ`
(the external embedding model's cosine path is modelled over `ℝ`), byte
payloads as `List UInt8`.  External collaborators (the transformers
pipeline, PDF/DOCX/TXT parsers) are oracle parameters.
-/

namespace ResumeAnalyzer

/-! ## Basic Python string helpers -/

/-- Characters matched by Python `\s` (ASCII range, which is all the
source's inputs need). -/
def pyIsSpace (c : Char) : Bool :=
  c = ' ' || c = '\t' || c = '\n' || c = '\r' || c = '\x0b' || c = '\x0c'

/-- Python `\d`. -/
def pyIsDigit (c : Char) : Bool := '0' ≤ c && c ≤ '9'

/-- Python `\w` (ASCII word characters). -/
def pyIsWord (c : Char) : Bool := c.isAlphanum || c = '_'

/-- A string literal as a character list. -/
def strL (s : String) : List Char := s.toList

/-- Python `str.lower` (ASCII case folding, which covers the source's data). -/
def lowerChars (s : List Char) : List Char := s.map Char.toLower

/-- Python `str.strip()`：drop leading and trailing whitespace. -/
def pyStrip (s : List Char) : List Char :=
  ((s.dropWhile pyIsSpace).reverse.dropWhile pyIsSpace).reverse

/-- Python `re.split` on a single-character class `p`: split into the
pieces between separator characters, keeping empty pieces. -/
def splitCls (p : Char → Bool) : List Char → List (List Char)
  | [] => [[]]
  | c :: rest =>
    match splitCls p rest with
    | [] => [[]]
    | piece :: more => if p c then [] :: piece :: more else (c :: piece) :: more

/-- Python `str.split()` with no argument: words separated by runs of
whitespace, with no empty pieces. -/
def pySplitWs (s : List Char) : List (List Char) :=
  (splitCls pyIsSpace s).filter (fun w => ¬ w.isEmpty)

/-- Python `str.title()`: a cased character is uppercased when the
previous character is not cased, lowercased otherwise. -/
def pyTitleGo : Bool → List Char → List Char
  | _, [] => []
  | prevAlpha, c :: rest =>
    (if c.isAlpha then (if prevAlpha then c.toLower else c.toUpper) else c)
      :: pyTitleGo c.isAlpha rest

/-- Python `str.title()`. -/
def pyTitle (s : List Char) : List Char := pyTitleGo false s

/-- Python substring test `a in b` (contiguous substring). -/
def pyIn (a b : List Char) : Bool := b.tails.any (fun t => a.isPrefixOf t)

/-- Python `set.add` folded over a list: keep the first occurrence of
each element (the Python set holds each string once; only membership in
the resulting collection is ever used by the source). -/
def setList (l : List (List Char)) : List (List Char) :=
  l.foldl (fun acc s => if s ∈ acc then acc else acc ++ [s]) []

/-- Python `int(...)` restricted to the shapes the source feeds it
(regex captures): succeeds exactly on a nonempty all-digit string. -/
def pyInt (s : List Char) : Except Unit Nat :=
  if s ≠ [] ∧ s.all pyIsDigit then
    Except.ok (s.foldl (fun n c => 10 * n + (c.toNat - '0'.toNat)) 0)
  else Except.error ()

/-! ## A small regular-expression engine

Exactly the fragment of Python `re` used by the source:
single-character classes, literals (case-sensitive and, for the
`re.IGNORECASE` catalogue patterns, case-insensitive), concatenation,
prioritized alternation, greedy `?`/`*`/`+` over single-character
classes, one capturing group, and the zero-width word-boundary `\b`.
Matching enumerates parses in Python's backtracking priority order
(leftmost, then first-alternative, then greedy), so the head of the
enumeration is the match Python's engine finds. -/

inductive RE where
  | eps
  | ch (c : Char)
  | chI (c : Char)
  | cls (p : Char → Bool)
  | cat (a b : RE)
  | alt (a b : RE)
  | opt (a : RE)
  | starCls (p : Char → Bool)
  | plusCls (p : Char → Bool)
  | group (a : RE)
  | wordB

/-- Greedy enumeration of the ways `p*` can consume a prefix: longest
first.  Entries carry the last consumed character (for `\b`) and the
rest of the input. -/
def runStar (p : Char → Bool) (prev : Option Char) :
    List Char → List (Option Char × List Char)
  | [] => [(prev, [])]
  | c :: rest =>
    (if p c then runStar p (some c) rest else []) ++ [(prev, c :: rest)]

/-- Greedy enumeration for `p+` (at least one character). -/
def runPlus (p : Char → Bool) (_prev : Option Char) :
    List Char → List (Option Char × List Char)
  | [] => []
  | c :: rest => if p c then runStar p (some c) rest else []

/-- Pattern `\b` holds between a word character and a non-word character
(either may be the edge of the input). -/
def atWordBoundary (prev : Option Char) (s : List Char) : Bool :=
  (match prev with | none => false | some c => pyIsWord c)
    != (match s with | [] => false | c :: _ => pyIsWord c)

/-- All ways `r` can match a prefix of `s`, in Python's backtracking
priority order.  `prev` is the character just before `s` (for `\b`).
Each entry is (last consumed char, remaining input, group-1 capture). -/
def runRE : RE → Option Char → List Char →
    List (Option Char × List Char × Option (List Char))
  | .eps, prev, s => [(prev, s, none)]
  | .ch _, _, [] => []
  | .ch c, _, d :: rest => if d = c then [(some d, rest, none)] else []
  | .chI _, _, [] => []
  | .chI c, _, d :: rest =>
    if d.toLower = c.toLower then [(some d, rest, none)] else []
  | .cls _, _, [] => []
  | .cls p, _, d :: rest => if p d then [(some d, rest, none)] else []
  | .cat a b, prev, s =>
    (runRE a prev s).flatMap (fun e =>
      (runRE b e.1 e.2.1).map (fun e' => (e'.1, e'.2.1, e.2.2.orElse (fun _ => e'.2.2))))
  | .alt a b, prev, s => runRE a prev s ++ runRE b prev s
  | .opt a, prev, s => runRE a prev s ++ [(prev, s, none)]
  | .starCls p, prev, s => (runStar p prev s).map (fun e => (e.1, e.2, none))
  | .plusCls p, prev, s => (runPlus p prev s).map (fun e => (e.1, e.2, none))
  | .group a, prev, s =>
    (runRE a prev s).map (fun e => (e.1, e.2.1, some (s.take (s.length - e.2.1.length))))
  | .wordB, prev, s => if atWordBoundary prev s then [(prev, s, none)] else []

/-- One scan step of Python `re.findall`: at the current position try
the pattern; on a match record (whole match, group capture) and resume
after it (advancing one character past an empty match), otherwise
advance one character.  `fuel` bounds the recursion (`s.length + 1`
always suffices since every step consumes input or stops). -/
def findAllAux (r : RE) : Nat → Option Char → List Char →
    List (List Char × Option (List Char))
  | 0, _, _ => []
  | fuel + 1, prev, s =>
    match (runRE r prev s).head? with
    | none =>
      match s with
      | [] => []
      | c :: t => findAllAux r fuel (some c) t
    | some e =>
      let whole := s.take (s.length - e.2.1.length)
      if whole.isEmpty then
        match s with
        | [] => [(whole, e.2.2)]
        | c :: t => (whole, e.2.2) :: findAllAux r fuel (some c) t
      else (whole, e.2.2) :: findAllAux r fuel e.1 e.2.1

/-- Python `re.findall(r, s)` for a pattern with no capturing group:
the list of whole matches. -/
def findAll (r : RE) (s : List Char) : List (List Char) :=
  ((findAllAux r (s.length + 1) none s).map Prod.fst)

/-- Python `re.findall(r, s)` for a pattern with one capturing group:
the list of group-1 captures (Python reports `''` for a group that did
not participate; `[]` plays that role here). -/
def findAllCaps (r : RE) (s : List Char) : List (List Char) :=
  ((findAllAux r (s.length + 1) none s).map (fun e => e.2.getD []))

/-- Case-sensitive literal. -/
def lit (s : String) : RE := s.toList.foldr (fun c r => RE.cat (RE.ch c) r) RE.eps

/-- Case-insensitive literal (for the `re.IGNORECASE` catalogue). -/
def litI (s : String) : RE := s.toList.foldr (fun c r => RE.cat (RE.chI c) r) RE.eps

/-- Prioritized alternation of a list (left to right, as in `a|b|c`). -/
def altL : List RE → RE
  | [] => RE.cls (fun _ => false)
  | [r] => r
  | r :: rs => RE.alt r (altL rs)

/-- Chain of concatenations. -/
def catL : List RE → RE
  | [] => RE.eps
  | [r] => r
  | r :: rs => RE.cat r (catL rs)

/-! ## The source's concrete patterns

Pattern pieces shared by `extract_experience_years` (all applied to the
lowercased text, so their literals are written lowercase exactly as in
the source). -/

/-- Pattern `\s*` -/
def spStar : RE := RE.starCls pyIsSpace

/-- Pattern `(\d+)` — the single capturing group of every experience pattern. -/
def digitsG : RE := RE.group (RE.plusCls pyIsDigit)

/-- Pattern `\+?` -/
def optPlus : RE := RE.opt (RE.ch '+')

/-- Source `years?` -/
def yearsP : RE := RE.cat (lit "year") (RE.opt (RE.ch 's'))

/-- Pattern `(?:experience|exp)` -/
def expWord : RE := RE.alt (lit "experience") (lit "exp")

/-- Pattern `(?:of\s*)?` -/
def ofOpt : RE := RE.opt (RE.cat (lit "of") spStar)

/-- Source `[:\-]?` -/
def colonDash : RE := RE.opt (RE.cls (fun c => c = ':' || c = '-'))

/-- Pattern `(\d+)\+?\s*years?\s*(?:of\s*)?(?:experience|exp)` -/
def ePat1 : RE := catL [digitsG, optPlus, spStar, yearsP, spStar, ofOpt, expWord]

/-- Pattern `(?:experience|exp)[:\-]?\s*(\d+)\+?\s*years?` -/
def ePat2 : RE := catL [expWord, colonDash, spStar, digitsG, optPlus, spStar, yearsP]

/-- Pattern `(\d+)\+?\s*years?\s*(?:in|of)` -/
def ePat3 : RE := catL [digitsG, optPlus, spStar, yearsP, spStar, RE.alt (lit "in") (lit "of")]

/-- Pattern `(\d+)\s*years?\s*(?:of\s*)?(?:experience|exp)` -/
def ePat4 : RE := catL [digitsG, spStar, yearsP, spStar, ofOpt, expWord]

/-- Pattern `(\d+)\+?\s*years?\s*(?:of\s*)?(?:professional|work)` -/
def ePat5 : RE :=
  catL [digitsG, optPlus, spStar, yearsP, spStar, ofOpt,
    RE.alt (lit "professional") (lit "work")]

/-- Pattern `(\d+)\+?\s*years?\s*(?:in\s*)?(?:software|development|programming)` -/
def ePat6 : RE :=
  catL [digitsG, optPlus, spStar, yearsP, spStar, RE.opt (RE.cat (lit "in") spStar),
    altL [lit "software", lit "development", lit "programming"]]

/-- Pattern `(\d+)\+?\s*years?\s*(?:as\s*)?(?:developer|engineer|programmer)` -/
def ePat7 : RE :=
  catL [digitsG, optPlus, spStar, yearsP, spStar, RE.opt (RE.cat (lit "as") spStar),
    altL [lit "developer", lit "engineer", lit "programmer"]]

/-- The ordered `experience_patterns` list of the source. -/
def experience_patterns : List RE := [ePat1, ePat2, ePat3, ePat4, ePat5, ePat6, ePat7]

/-- Pattern `(\d+)\+?\s*years?` — first broad pattern. -/
def sPat1 : RE := catL [digitsG, optPlus, spStar, yearsP]

/-- Pattern `(\d+)\s*years?` — second broad pattern. -/
def sPat2 : RE := catL [digitsG, spStar, yearsP]

/-- The ordered `simple_patterns` list of the source. -/
def simple_patterns : List RE := [sPat1, sPat2]

/-- A catalogue entry `\b(?:A|B|…)\b`. -/
def bword (alts : List RE) : RE := catL [RE.wordB, altL alts, RE.wordB]

/-- Pattern `\b(?:JavaScript|JS|React|Angular|Vue|Node\.?js|Express|jQuery)\b` -/
def sk1 : RE :=
  bword [litI "JavaScript", litI "JS", litI "React", litI "Angular", litI "Vue",
    catL [litI "Node", RE.opt (RE.ch '.'), litI "js"], litI "Express", litI "jQuery"]

/-- Pattern `\b(?:Python|Java|C\+\+|C#|PHP|Ruby|Go|Rust|Swift|Kotlin)\b` -/
def sk2 : RE :=
  bword [litI "Python", litI "Java", litI "C++", litI "C#", litI "PHP", litI "Ruby",
    litI "Go", litI "Rust", litI "Swift", litI "Kotlin"]

/-- Pattern `\b(?:HTML|CSS|SASS|SCSS|Bootstrap|Tailwind)\b` -/
def sk3 : RE :=
  bword [litI "HTML", litI "CSS", litI "SASS", litI "SCSS", litI "Bootstrap",
    litI "Tailwind"]

/-- Pattern `\b(?:SQL|MySQL|PostgreSQL|MongoDB|Redis|Elasticsearch)\b` -/
def sk4 : RE :=
  bword [litI "SQL", litI "MySQL", litI "PostgreSQL", litI "MongoDB", litI "Redis",
    litI "Elasticsearch"]

/-- Pattern `\b(?:AWS|Azure|GCP|Docker|Kubernetes|Jenkins|Git|GitHub|GitLab)\b` -/
def sk5 : RE :=
  bword [litI "AWS", litI "Azure", litI "GCP", litI "Docker", litI "Kubernetes",
    litI "Jenkins", litI "Git", litI "GitHub", litI "GitLab"]

/-- Pattern `\b(?:MERN|MEAN|LAMP|Django|Flask|Spring|Laravel|Rails)\b` -/
def sk6 : RE :=
  bword [litI "MERN", litI "MEAN", litI "LAMP", litI "Django", litI "Flask",
    litI "Spring", litI "Laravel", litI "Rails"]

/-- Pattern `\b(?:Machine Learning|ML|AI|Data Science|Analytics|Big Data)\b` -/
def sk7 : RE :=
  bword [litI "Machine Learning", litI "ML", litI "AI", litI "Data Science",
    litI "Analytics", litI "Big Data"]

/-- Pattern `\b(?:Agile|Scrum|DevOps|CI/CD|Microservices|REST|API)\b` -/
def sk8 : RE :=
  bword [litI "Agile", litI "Scrum", litI "DevOps", litI "CI/CD",
    litI "Microservices", litI "REST", litI "API"]

/-- Pattern `\b(?:Linux|Unix|Windows|macOS|iOS|Android)\b` -/
def sk9 : RE :=
  bword [litI "Linux", litI "Unix", litI "Windows", litI "macOS", litI "iOS",
    litI "Android"]

/-- Pattern `\b(?:Photoshop|Illustrator|Figma|Sketch|Adobe|Design)\b` -/
def sk10 : RE :=
  bword [litI "Photoshop", litI "Illustrator", litI "Figma", litI "Sketch",
    litI "Adobe", litI "Design"]

/-- The `skill_patterns` catalogue of the source (each applied with
`re.IGNORECASE`, hence the case-insensitive literals). -/
def skill_patterns : List RE := [sk1, sk2, sk3, sk4, sk5, sk6, sk7, sk8, sk9, sk10]

/-- Pattern `(?:skills?|technologies?|tools?|languages?)[:\-]?\s*([^.\n]+)` —
the heading pattern, applied to the lowercased text. -/
def headingRE : RE :=
  catL
    [altL
      [RE.cat (lit "skill") (RE.opt (RE.ch 's')),
       RE.cat (lit "technologie") (RE.opt (RE.ch 's')),
       RE.cat (lit "tool") (RE.opt (RE.ch 's')),
       RE.cat (lit "language") (RE.opt (RE.ch 's'))],
     colonDash, spStar,
     RE.group (RE.plusCls (fun c => ¬ (c = '.' || c = '\n')))]

/-- The separator class of `re.split(r'[,;|â€¢\-\n]', …)`.  NOTE: the
source file literally contains the three characters `â`, `€`, `¢`
(a mojibake encoding of the bullet `•`); the bullet itself is NOT a
separator. -/
def sepCls (c : Char) : Bool :=
  c = ',' || c = ';' || c = '|' || c = 'â' || c = '€' || c = '¢' || c = '-' || c = '\n'

/-! ## Signal extraction (`extract_skills_from_text`, `extract_experience_years`) -/

/-- Source `ResumeAnalyzer.extract_skills_from_text`: union of the whole-match
catalogue hits (stripped) and the heading-line candidates (split on
`sepCls`, stripped, kept when their length is strictly between 2 and
50, title-cased), collected as a Python set. -/
def extract_skills_from_text (text : List Char) : List (List Char) :=
  let catalogMatches := skill_patterns.flatMap (fun p => (findAll p text).map pyStrip)
  let text_lower := lowerChars text
  let sections := findAllCaps headingRE text_lower
  let headingSkills := sections.flatMap (fun sec =>
    ((splitCls sepCls sec).map pyStrip).filterMap (fun sk =>
      if 2 < sk.length ∧ sk.length < 50 then some (pyTitle sk) else none))
  setList (catalogMatches ++ headingSkills)

/-- Source `ResumeAnalyzer.extract_experience_years`: running maximum (from 0)
of the integers captured by the seven specific patterns, then folded
with the broad-pattern captures accepted only in `[1, 50]`. -/
def extract_experience_years (text : List Char) : Nat :=
  let text_lower := lowerChars text
  let m1 := experience_patterns.foldl (fun acc p =>
    (findAllCaps p text_lower).foldl (fun a m =>
      match pyInt m with
      | .ok y => max a y
      | .error _ => a) acc) 0
  simple_patterns.foldl (fun acc p =>
    (findAllCaps p text_lower).foldl (fun a m =>
      match pyInt m with
      | .ok y => if 1 ≤ y ∧ y ≤ 50 then max a y else a
      | .error _ => a) acc) m1

/-! ## Similarity scorer (`calculate_similarity`, `_simple_text_similarity`) -/

/-- Source `ResumeAnalyzer._simple_text_similarity`: Jaccard similarity of the
lower-cased whitespace-tokenized word sets. -/
def simple_text_similarity (t1 t2 : List Char) : ℚ :=
  let words1 := setList (pySplitWs (lowerChars t1))
  let words2 := setList (pySplitWs (lowerChars t2))
  if words1 = [] ∨ words2 = [] then 0
  else
    let inter := words1.filter (fun w => w ∈ words2)
    let union := words1 ++ words2.filter (fun w => w ∉ words1)
    if union = [] then 0 else (inter.length : ℚ) / (union.length : ℚ)

/-- Source `ResumeAnalyzer.calculate_similarity`.  The transformers pipeline /
numpy / sklearn composite of the primary path is an oracle `primary`
(`Except.error` models the `except` branch: any raise inside the `try`
block); the `except` handler falls back to `_simple_text_similarity`. -/
def calculate_similarity (primary : List Char → List Char → Except String ℚ)
    (t1 t2 : List Char) : ℚ :=
  match primary t1 t2 with
  | .ok v => v
  | .error _ => simple_text_similarity t1 t2

/-- Source `calculate_similarity` with Python exception propagation made
explicit: an uncaught raise would surface as `Except.error`. -/
def calculate_similarityE (primary : List Char → List Char → Except String ℚ)
    (t1 t2 : List Char) : Except String ℚ :=
  match primary t1 t2 with
  | .ok v => Except.ok v
  | .error _ => Except.ok (simple_text_similarity t1 t2)

/-! ### The primary path's mathematics

The primary path mean-pools the token embeddings of each text
(`np.array(e).mean(axis=0)`) and returns their cosine similarity
(`sklearn.metrics.pairwise.cosine_similarity`); the embeddings
themselves come from the external model (an oracle).  The source
returns this value unclamped. -/

/-- Dot product of two equal-length real vectors. -/
def dotL (u v : List ℝ) : ℝ := (List.zipWith (fun a b => a * b) u v).sum

/-- Source `np.array(rows).mean(axis=0)`: columnwise mean. -/
noncomputable def npMeanAxis0 (rows : List (List ℝ)) : List ℝ :=
  match rows with
  | [] => []
  | r0 :: _ => (List.range r0.length).map
      (fun i => (rows.map (fun r => r.getD i 0)).sum / (rows.length : ℝ))

/-- Source `sklearn` cosine similarity of two vectors. -/
noncomputable def cosine_similarity (u v : List ℝ) : ℝ :=
  dotL u v / (Real.sqrt (dotL u u) * Real.sqrt (dotL v v))

/-- The primary path of `calculate_similarity`, given the embedding
oracle `emb`: cosine similarity of the mean-pooled embeddings. -/
noncomputable def primary_similarity (emb : List Char → List (List ℝ))
    (t1 t2 : List Char) : ℝ :=
  cosine_similarity (npMeanAxis0 (emb t1)) (npMeanAxis0 (emb t2))

/-! ## Rounding

Python's `round(x, 2)` (round half to even, modelled over `ℚ`). -/

/-- Round to the nearest integer, ties to even. -/
def roundHalfEven (q : ℚ) : ℤ :=
  let f := ⌊q⌋
  if q - f < 1 / 2 then f
  else if (1 : ℚ) / 2 < q - f then f + 1
  else if f % 2 = 0 then f else f + 1

/-- Python `round(q, 2)`. -/
def round2 (q : ℚ) : ℚ := (roundHalfEven (q * 100) : ℚ) / 100

/-! ## Match engine (`analyze_resume_match`) -/

/-- The skill-matching loop of `analyze_resume_match` over the
lower-cased lists: a required skill is matched when some résumé skill
contains it or is contained in it (Python `in`), else missing; returns
(matched, missing) in required order. -/
def skillSplit (required_lower resume_lower : List (List Char)) :
    List (List Char) × List (List Char) :=
  match required_lower with
  | [] => ([], [])
  | s :: rest =>
    let r := skillSplit rest resume_lower
    if resume_lower.any (fun rs => pyIn s rs || pyIn rs s) then (s :: r.1, r.2)
    else (r.1, s :: r.2)

/-- Source `matched_skills` and `missing_skills` as computed by
`analyze_resume_match` from the résumé text and required skills. -/
def matched_missing (resume_text : List Char) (required_skills : List (List Char)) :
    List (List Char) × List (List Char) :=
  skillSplit (required_skills.map lowerChars)
    ((extract_skills_from_text resume_text).map lowerChars)

/-- Source `skill_match_percentage`:
`(len(matched)/len(required))*100 if required_skills else 0`. -/
def skill_match_pct (resume_text : List Char) (required_skills : List (List Char)) : ℚ :=
  if required_skills = [] then 0
  else ((matched_missing resume_text required_skills).1.length : ℚ)
    / (required_skills.length : ℚ) * 100

/-- Source `experience_match = resume_experience >= required_experience`. -/
def experience_match_b (resume_text : List Char) (required_experience : ℤ) : Bool :=
  required_experience ≤ (extract_experience_years resume_text : ℤ)

/-- The unrounded `overall_match` weighted sum (40 % skills, 30 %
experience, 30 % similarity), exactly as on lines 355–359. -/
def overall_match (primary : List Char → List Char → Except String ℚ)
    (resume_text job_description : List Char) (required_skills : List (List Char))
    (required_experience : ℤ) : ℚ :=
  skill_match_pct resume_text required_skills * 0.4
    + (if experience_match_b resume_text required_experience then (100 : ℚ) else 0) * 0.3
    + calculate_similarity primary resume_text job_description * 100 * 0.3

/-- The verdict branch on the unrounded overall match. -/
def match_status (ov : ℚ) : String :=
  if ov ≥ 80 then "Match" else if ov ≥ 60 then "Partial Match" else "Not a Match"

/-- The suitability branch on the unrounded overall match. -/
def suitability_of (ov : ℚ) : String :=
  if ov ≥ 80 then "High" else if ov ≥ 60 then "Medium" else "Low"

/-- Source `ResumeAnalyzer._generate_gaps_analysis`. -/
def generate_gaps_analysis (_matched_skills missing_skills : List (List Char))
    (experience_match : Bool) (required_exp : ℤ) (resume_exp : ℕ) : List Char :=
  let gaps : List (List Char) :=
    (if missing_skills ≠ [] then
      [strL "Missing required skills: " ++ List.intercalate (strL ", ") missing_skills]
     else [])
    ++ (if ¬ experience_match then
      [strL "Experience gap: Resume shows " ++ (toString resume_exp).toList
        ++ strL " years, but " ++ (toString required_exp).toList
        ++ strL "+ years required"]
     else [])
  if gaps = [] then
    strL "No significant gaps identified. Candidate meets all requirements."
  else strL "Gaps identified: " ++ List.intercalate (strL "; ") gaps

/-- The record returned by `analyze_resume_match` (the nested
`skills_match` dict is flattened: its `match_percentage` field is
`skills_match_percentage` here). -/
structure MatchResult where
  match_percentage : ℚ
  confidence_score : ℚ
  is_match : String
  suitability_rating : String
  matched_skills : List (List Char)
  missing_skills : List (List Char)
  skills_match_percentage : ℚ
  experience_match : Bool
  resume_experience : ℕ
  required_experience : ℤ
  gaps_analysis : List Char
  resume_skills : List (List Char)

/-- Source `ResumeAnalyzer.analyze_resume_match`. -/
def analyze_resume_match (primary : List Char → List Char → Except String ℚ)
    (resume_text job_description : List Char) (required_skills : List (List Char))
    (required_experience : ℤ) : MatchResult :=
  let ov := overall_match primary resume_text job_description required_skills
    required_experience
  { match_percentage := round2 ov
    confidence_score :=
      round2 (calculate_similarity primary resume_text job_description * 100)
    is_match := match_status ov
    suitability_rating := suitability_of ov
    matched_skills := (matched_missing resume_text required_skills).1
    missing_skills := (matched_missing resume_text required_skills).2
    skills_match_percentage := round2 (skill_match_pct resume_text required_skills)
    experience_match := experience_match_b resume_text required_experience
    resume_experience := extract_experience_years resume_text
    required_experience := required_experience
    gaps_analysis := generate_gaps_analysis (matched_missing resume_text required_skills).1
      (matched_missing resume_text required_skills).2
      (experience_match_b resume_text required_experience) required_experience
      (extract_experience_years resume_text)
    resume_skills := extract_skills_from_text resume_text }

/-- Source `analyze_resume_match` with Python exception propagation made
explicit through the similarity call (the only operation in the
function whose callee can raise at all; see `calculate_similarityE`). -/
def analyze_resume_matchE (primary : List Char → List Char → Except String ℚ)
    (resume_text job_description : List Char) (required_skills : List (List Char))
    (required_experience : ℤ) : Except String MatchResult := do
  let _sim ← calculate_similarityE primary resume_text job_description
  Except.ok (analyze_resume_match primary resume_text job_description
    required_skills required_experience)

/-! ## Document text extractor (`extract_text_from_file`) -/

/-- The §7 error taxonomy.  In the source these are `ValueError`s
distinguished by message (`"File content is empty"`,
`"Unsupported file format: …"`) and format-specific parse failures. -/
inductive ExtractErr where
  | emptyInput
  | unsupportedFormat (ext : List Char)
  | extractionFailure (msg : List Char)
deriving DecidableEq

/-- Source `filename.lower().split('.')[-1]`. -/
def file_extension (filename : List Char) : List Char :=
  (splitCls (fun c => c = '.') (lowerChars filename)).getLastD []

/-- Source `ResumeAnalyzer.extract_text_from_file`.  The three format-specific
extractors (`_extract_from_pdf`, `_extract_from_docx`,
`_extract_from_txt`) parse bytes with external libraries and are oracle
parameters; their failures surface as `extractionFailure`. -/
def extract_text_from_file
    (pdfX docxX txtX : List UInt8 → Except (List Char) (List Char))
    (file_content : List UInt8) (filename : List Char) :
    Except ExtractErr (List Char) :=
  if file_content = [] then Except.error ExtractErr.emptyInput
  else
    let ext := file_extension filename
    let parsed : Except ExtractErr (List Char) :=
      if ext = strL "pdf" then (pdfX file_content).mapError ExtractErr.extractionFailure
      else if ext = strL "doc" ∨ ext = strL "docx" then
        (docxX file_content).mapError ExtractErr.extractionFailure
      else if ext = strL "txt" then
        (txtX file_content).mapError ExtractErr.extractionFailure
      else Except.error (ExtractErr.unsupportedFormat ext)
    match parsed with
    | Except.error e => Except.error e
    | Except.ok text =>
      if pyStrip text = [] then
        Except.error (ExtractErr.extractionFailure
          (strL "No text content extracted from file"))
      else Except.ok (pyStrip text)

/-! ## Spec-side definitions

For refinement-style claims, a second definition written from the
spec's words, to be compared with the embedding of the source. -/

/-- The separator class as the spec describes it — "commas, semicolons,
pipes, dashes, and bullet characters" — i.e. with the actual bullet
`•` in place of the source's three mojibake characters. -/
def sepClsClaimed (c : Char) : Bool :=
  c = ',' || c = ';' || c = '|' || c = '•' || c = '-' || c = '\n'

/-- Source `extract_skills_from_text` as the claim describes it: identical to
the source except that heading sections are split on `sepClsClaimed`
(bullet included, mojibake excluded). -/
def extract_skills_claimed (text : List Char) : List (List Char) :=
  let catalogMatches := skill_patterns.flatMap (fun p => (findAll p text).map pyStrip)
  let text_lower := lowerChars text
  let sections := findAllCaps headingRE text_lower
  let headingSkills := sections.flatMap (fun sec =>
    ((splitCls sepClsClaimed sec).map pyStrip).filterMap (fun sk =>
      if 2 < sk.length ∧ sk.length < 50 then some (pyTitle sk) else none))
  setList (catalogMatches ++ headingSkills)

/-- A concrete embedding oracle exercising the unclamped cosine path:
antipodal one-dimensional embeddings for the two texts. -/
noncomputable def embNeg : List Char → List (List ℝ) :=
  fun t => if t = strL "a" then [[1]] else [[-1]]

/-! ## Helper lemmas -/

/-- The matching predicate of the skill loop. -/
def skillHit (resume_lower : List (List Char)) (s : List Char) : Bool :=
  resume_lower.any (fun rs => pyIn s rs || pyIn rs s)

theorem skillSplit_eq_filter (req obs : List (List Char)) :
    skillSplit req obs
      = (req.filter (skillHit obs), req.filter (fun s => ! skillHit obs s)) := by
  induction req with
  | nil => rfl
  | cons s rest ih =>
    simp only [skillSplit, ih, List.filter_cons, skillHit]
    by_cases h : obs.any (fun rs => pyIn s rs || pyIn rs s) = true
    · simp [h]
    · simp [h]

theorem skillSplit_length (req obs : List (List Char)) :
    (skillSplit req obs).1.length + (skillSplit req obs).2.length = req.length := by
  induction req with
  | nil => rfl
  | cons s rest ih =>
    simp only [skillSplit]
    by_cases h : obs.any (fun rs => pyIn s rs || pyIn rs s) = true
    · simp [h, ih]; omega
    · simp [h, ih]; omega

theorem setList_mem (l : List (List Char)) (x : List Char) :
    x ∈ setList l ↔ x ∈ l := by
  suffices h : ∀ acc, x ∈ l.foldl
      (fun acc s => if s ∈ acc then acc else acc ++ [s]) acc ↔ x ∈ acc ∨ x ∈ l by
    simpa [setList] using h []
  induction l with
  | nil => simp
  | cons s rest ih =>
    intro acc
    by_cases h : s ∈ acc
    · rw [List.foldl_cons]
      simp only [h, if_pos]
      rw [ih]
      constructor
      · rintro (hx | hx)
        · exact Or.inl hx
        · exact Or.inr (List.mem_cons_of_mem _ hx)
      · rintro (hx | hx)
        · exact Or.inl hx
        · rcases List.mem_cons.mp hx with rfl | hx
          · exact Or.inl h
          · exact Or.inr hx
    · rw [List.foldl_cons]
      simp only [h, if_neg, not_false_iff]
      rw [ih]
      simp [List.mem_append, List.mem_cons]
      tauto

theorem foldl_max_shift (l : List ℕ) (a : ℕ) :
    l.foldl max a = max a (l.foldl max 0) := by
  induction l generalizing a with
  | nil => simp
  | cons x rest ih =>
    simp only [List.foldl_cons]
    rw [ih (max a x), ih (max 0 x)]
    simp [Nat.max_assoc]

theorem inner_fold_spec (ms : List (List Char)) (a : ℕ) :
    ms.foldl (fun acc m =>
        match pyInt m with
        | .ok y => max acc y
        | .error _ => acc) a
      = (ms.filterMap (fun m => (pyInt m).toOption)).foldl max a := by
  induction ms generalizing a with
  | nil => rfl
  | cons m rest ih =>
    simp only [List.foldl_cons, List.filterMap_cons]
    cases h : pyInt m with
    | ok y => simp [h, ih, Except.toOption]
    | error e => simp [h, ih, Except.toOption]

theorem inner_fold_clamped_spec (ms : List (List Char)) (a : ℕ) :
    ms.foldl (fun acc m =>
        match pyInt m with
        | .ok y => if 1 ≤ y ∧ y ≤ 50 then max acc y else acc
        | .error _ => acc) a
      = ((ms.filterMap (fun m => (pyInt m).toOption)).filter
          (fun y => decide (1 ≤ y) && decide (y ≤ 50))).foldl max a := by
  induction ms generalizing a with
  | nil => rfl
  | cons m rest ih =>
    simp only [List.foldl_cons, List.filterMap_cons]
    cases h : pyInt m with
    | ok y =>
      by_cases hy : 1 ≤ y ∧ y ≤ 50
      · simp [h, ih, Except.toOption, List.filter_cons, hy.1, hy.2]
      · have : ¬ (decide (1 ≤ y) && decide (y ≤ 50)) = true := by
          simp only [Bool.and_eq_true, decide_eq_true_eq]; exact hy
        simp [h, Except.toOption, List.filter_cons, this, hy, ih]
    | error e => simp [h, ih, Except.toOption]

theorem outer_fold_flat (f : RE → List ℕ) (ps : List RE) (a : ℕ) :
    ps.foldl (fun acc p => (f p).foldl max acc) a = (ps.flatMap f).foldl max a := by
  induction ps generalizing a with
  | nil => rfl
  | cons p rest ih => simp [List.foldl_append, ih]

theorem roundHalfEven_bounds (q : ℚ) (a b : ℤ) (h1 : (a : ℚ) ≤ q) (h2 : q ≤ (b : ℚ)) :
    a ≤ roundHalfEven q ∧ roundHalfEven q ≤ b := by
  have hfa : a ≤ ⌊q⌋ := Int.le_floor.mpr h1
  have hfq : (⌊q⌋ : ℚ) ≤ q := Int.floor_le q
  have hfb : ⌊q⌋ ≤ b := by
    have := Int.floor_le_floor h2
    simpa using this
  have hsucc : (1 : ℚ) / 2 ≤ q - (⌊q⌋ : ℚ) → ⌊q⌋ + 1 ≤ b := by
    intro hhalf
    have : (⌊q⌋ : ℚ) + 1 / 2 ≤ (b : ℚ) := by linarith
    have hlt : (⌊q⌋ : ℚ) < (b : ℚ) := by linarith
    have : ⌊q⌋ < b := by exact_mod_cast hlt
    omega
  unfold roundHalfEven
  dsimp only
  split_ifs with hlt hgt heven
  · exact ⟨hfa, hfb⟩
  · refine ⟨by omega, hsucc (le_of_lt hgt)⟩
  · exact ⟨hfa, hfb⟩
  · have hhalf : (1 : ℚ) / 2 ≤ q - (⌊q⌋ : ℚ) := le_of_not_lt hlt
    exact ⟨by omega, hsucc hhalf⟩

theorem round2_bounds (x : ℚ) (h0 : 0 ≤ x) (h100 : x ≤ 100) :
    0 ≤ round2 x ∧ round2 x ≤ 100 := by
  have h1 : ((0 : ℤ) : ℚ) ≤ x * 100 := by push_cast; nlinarith
  have h2 : x * 100 ≤ ((10000 : ℤ) : ℚ) := by push_cast; nlinarith
  obtain ⟨ha, hb⟩ := roundHalfEven_bounds (x * 100) 0 10000 h1 h2
  constructor
  · have : (0 : ℚ) ≤ (roundHalfEven (x * 100) : ℚ) := by exact_mod_cast ha
    unfold round2
    positivity
  · have : (roundHalfEven (x * 100) : ℚ) ≤ 10000 := by exact_mod_cast hb
    unfold round2
    linarith

theorem simple_text_similarity_bounds (t1 t2 : List Char) :
    0 ≤ simple_text_similarity t1 t2 ∧ simple_text_similarity t1 t2 ≤ 1 := by
  unfold simple_text_similarity
  dsimp only
  split_ifs with h1 h2
  · exact ⟨le_refl 0, by norm_num⟩
  · exact ⟨le_refl 0, by norm_num⟩
  · set w1 := setList (pySplitWs (lowerChars t1)) with hw1
    set w2 := setList (pySplitWs (lowerChars t2)) with hw2
    set inter := w1.filter (fun w => w ∈ w2) with hinter
    set union := w1 ++ w2.filter (fun w => w ∉ w1) with hunion
    have hlen : inter.length ≤ union.length := by
      calc inter.length ≤ w1.length := List.length_filter_le _ _
        _ ≤ union.length := by simp [hunion]
    have hpos : 0 < (union.length : ℚ) := by
      have : union ≠ [] := h2
      have : 0 < union.length := List.length_pos.mpr this
      exact_mod_cast this
    constructor
    · positivity
    · rw [div_le_one hpos]
      exact_mod_cast hlen

theorem skill_match_pct_bounds (rt : List Char) (req : List (List Char)) :
    0 ≤ skill_match_pct rt req ∧ skill_match_pct rt req ≤ 100 := by
  unfold skill_match_pct
  split_ifs with h
  · norm_num
  · set mm := matched_missing rt req with hmm
    have hle : mm.1.length ≤ req.length := by
      have := skillSplit_length (req.map lowerChars)
        ((extract_skills_from_text rt).map lowerChars)
      have hlen : (skillSplit (req.map lowerChars)
          ((extract_skills_from_text rt).map lowerChars)).1.length
          ≤ (req.map lowerChars).length := by omega
      simpa [hmm, matched_missing] using hlen
    have hpos : 0 < (req.length : ℚ) := by
      have : 0 < req.length := List.length_pos.mpr h
      exact_mod_cast this
    constructor
    · positivity
    · have h1 : (mm.1.length : ℚ) / (req.length : ℚ) ≤ 1 := by
        rw [div_le_one hpos]; exact_mod_cast hle
      nlinarith

theorem status_iff (ov : ℚ) :
    ((80 ≤ ov) ↔ (match_status ov = "Match" ∧ suitability_of ov = "High"))
      ∧ ((60 ≤ ov ∧ ov < 80)
        ↔ (match_status ov = "Partial Match" ∧ suitability_of ov = "Medium"))
      ∧ ((ov < 60)
        ↔ (match_status ov = "Not a Match" ∧ suitability_of ov = "Low")) := by
  unfold match_status suitability_of
  split_ifs with h1 h2
  · refine ⟨⟨fun _ => ⟨rfl, rfl⟩, fun _ => h1⟩, ⟨?_, ?_⟩, ⟨?_, ?_⟩⟩
    · rintro ⟨_, h⟩; linarith
    · rintro ⟨h, _⟩; exact absurd h (by decide)
    · intro h; linarith
    · rintro ⟨h, _⟩; exact absurd h (by decide)
  · push_neg at h1
    refine ⟨⟨fun h => absurd h (by linarith), ?_⟩,
      ⟨fun _ => ⟨rfl, rfl⟩, fun _ => ⟨h2, h1⟩⟩, ⟨?_, ?_⟩⟩
    · rintro ⟨h, _⟩; exact absurd h (by decide)
    · intro h; linarith
    · rintro ⟨h, _⟩; exact absurd h (by decide)
  · push_neg at h1 h2
    refine ⟨⟨fun h => absurd h (by linarith), ?_⟩, ⟨?_, ?_⟩,
      ⟨fun _ => ⟨rfl, rfl⟩, fun _ => h2⟩⟩
    · rintro ⟨h, _⟩; exact absurd h (by decide)
    · rintro ⟨h, _⟩; linarith
    · rintro ⟨h, _⟩; exact absurd h (by decide)

/-! ## Claim theorems -/

/-- C1: for every similarity oracle, résumé text, job description,
required skills and required experience, the reported
`match_percentage` is `0.4 × skill_match_pct + 0.3 × (100 if
experience_match else 0) + 0.3 × (similarity × 100)` rounded to two
decimals, where the similarity is the value returned by
`calculate_similarity` on (résumé text, job description). -/
theorem claim_C1 (primary : List Char → List Char → Except String ℚ)
    (rt jd : List Char) (req : List (List Char)) (rexp : ℤ) :
    (analyze_resume_match primary rt jd req rexp).match_percentage
      = round2 (0.4 * skill_match_pct rt req
          + 0.3 * (if experience_match_b rt rexp then (100 : ℚ) else 0)
          + 0.3 * (calculate_similarity primary rt jd * 100)) := by
  show round2 (overall_match primary rt jd req rexp) = _
  unfold overall_match
  exact congrArg round2 (by ring)

/-- The similarity oracle of the C2 counterexample: the primary backend
returns cosine value 833/2500 = 0.3332 ∈ [0, 1]. -/
def poC2 : List Char → List Char → Except String ℚ := fun _ _ => Except.ok (833 / 2500)

theorem pctPython : skill_match_pct (strL "python") [strL "python"] = 100 := by
  unfold skill_match_pct
  rw [show matched_missing (strL "python") [strL "python"] = ([strL "python"], [])
    from by decide]
  norm_num

theorem ovC2 : overall_match poC2 (strL "python") (strL "x") [strL "python"] 0
    = 19999 / 250 := by
  unfold overall_match
  rw [pctPython]
  rw [show experience_match_b (strL "python") 0 = true from by decide]
  rw [show calculate_similarity poC2 (strL "python") (strL "x") = 833 / 2500 from rfl]
  norm_num

theorem roundC2 : round2 (19999 / 250) = 80 := by
  unfold round2 roundHalfEven
  have hf : (⌊(19999 / 250 : ℚ) * 100⌋ : ℤ) = 7999 := by
    rw [Int.floor_eq_iff]
    norm_num
  dsimp only
  rw [hf]
  norm_num

/-- C2 counterexample: with overall match 79.996 (full skill and
experience credit, similarity 0.3332) the reported two-decimal
`match_percentage` rounds up to 80.00 while the verdict — computed on
the unrounded value — is `"Partial Match"`, so the claimed biconditional
`match_percentage ≥ 80 ⇔ is_match = "Match"` fails. -/
theorem claim_C2_counterexample :
    (analyze_resume_match poC2 (strL "python") (strL "x") [strL "python"] 0).match_percentage
        = 80
      ∧ (analyze_resume_match poC2 (strL "python") (strL "x")
          [strL "python"] 0).is_match = "Partial Match"
      ∧ ¬ ((80 : ℚ) ≤ (analyze_resume_match poC2 (strL "python") (strL "x")
            [strL "python"] 0).match_percentage
          ↔ (analyze_resume_match poC2 (strL "python") (strL "x")
              [strL "python"] 0).is_match = "Match") := by
  have h1 : (analyze_resume_match poC2 (strL "python") (strL "x")
      [strL "python"] 0).match_percentage = 80 := by
    show round2 (overall_match poC2 (strL "python") (strL "x") [strL "python"] 0) = 80
    rw [ovC2]; exact roundC2
  have h2 : (analyze_resume_match poC2 (strL "python") (strL "x")
      [strL "python"] 0).is_match = "Partial Match" := by
    show match_status (overall_match poC2 (strL "python") (strL "x") [strL "python"] 0)
      = "Partial Match"
    rw [ovC2]
    unfold match_status
    norm_num
  refine ⟨h1, h2, fun hbi => ?_⟩
  have : (analyze_resume_match poC2 (strL "python") (strL "x")
      [strL "python"] 0).is_match = "Match" := hbi.mp (by rw [h1])
  rw [h2] at this
  exact absurd this (by decide)

/-- C2 (amended): the verdict and suitability tier are decided by the
thresholds on the UNROUNDED overall percentage — `≥ 80` →
`Match`/`High`, `≥ 60` and `< 80` → `Partial Match`/`Medium`, `< 60` →
`Not a Match`/`Low` — and the biconditionals hold for that unrounded
value (the reported rounded `match_percentage` can disagree near the
thresholds). -/
theorem claim_C2_amended (primary : List Char → List Char → Except String ℚ)
    (rt jd : List Char) (req : List (List Char)) (rexp : ℤ) :
    ((80 ≤ overall_match primary rt jd req rexp)
        ↔ ((analyze_resume_match primary rt jd req rexp).is_match = "Match"
          ∧ (analyze_resume_match primary rt jd req rexp).suitability_rating = "High"))
      ∧ ((60 ≤ overall_match primary rt jd req rexp
            ∧ overall_match primary rt jd req rexp < 80)
        ↔ ((analyze_resume_match primary rt jd req rexp).is_match = "Partial Match"
          ∧ (analyze_resume_match primary rt jd req rexp).suitability_rating = "Medium"))
      ∧ ((overall_match primary rt jd req rexp < 60)
        ↔ ((analyze_resume_match primary rt jd req rexp).is_match = "Not a Match"
          ∧ (analyze_resume_match primary rt jd req rexp).suitability_rating = "Low")) := by
  have hm : (analyze_resume_match primary rt jd req rexp).is_match
      = match_status (overall_match primary rt jd req rexp) := rfl
  have hs : (analyze_resume_match primary rt jd req rexp).suitability_rating
      = suitability_of (overall_match primary rt jd req rexp) := rfl
  rw [hm, hs]
  exact status_iff (overall_match primary rt jd req rexp)

theorem overall_bounds (primary : List Char → List Char → Except String ℚ)
    (rt jd : List Char) (req : List (List Char)) (rexp : ℤ)
    (h0 : 0 ≤ calculate_similarity primary rt jd)
    (h1 : calculate_similarity primary rt jd ≤ 1) :
    0 ≤ overall_match primary rt jd req rexp
      ∧ overall_match primary rt jd req rexp ≤ 100 := by
  obtain ⟨hp0, hp1⟩ := skill_match_pct_bounds rt req
  unfold overall_match
  by_cases he : experience_match_b rt rexp = true
  · rw [he, if_pos rfl]
    constructor <;> linarith
  · simp only [Bool.not_eq_true] at he
    rw [he, if_neg (by decide)]
    constructor <;> linarith

theorem round2_neg100 : round2 (-1 * 100 * 100 / 100) = -100 := by
  unfold round2 roundHalfEven
  have hf : (⌊(-1 * 100 * 100 / 100 : ℚ) * 100⌋ : ℤ) = -10000 := by
    rw [Int.floor_eq_iff]
    norm_num
  dsimp only
  rw [hf]
  norm_num

/-- C3 counterexample: the primary path of the similarity scorer is an
unclamped cosine similarity, which at antipodal mean-pooled embeddings
evaluates to −1 ∉ [0, 1]; fed through `calculate_similarity` unchanged,
it yields a `confidence_score` of −100, violating the claimed bound
`0 ≤ confidence_score`. -/
theorem claim_C3_counterexample :
    primary_similarity embNeg (strL "a") (strL "b") = -1
      ∧ ¬ (0 ≤ primary_similarity embNeg (strL "a") (strL "b"))
      ∧ calculate_similarity (fun _ _ => Except.ok (-1)) (strL "a") (strL "b") = -1
      ∧ (analyze_resume_match (fun _ _ => Except.ok (-1)) (strL "a") (strL "b")
          [] 0).confidence_score = -100 := by
  have hemb1 : embNeg (strL "a") = [[1]] := by
    unfold embNeg
    rw [if_pos rfl]
  have hemb2 : embNeg (strL "b") = [[-1]] := by
    unfold embNeg
    rw [if_neg (by decide)]
  have hcos : primary_similarity embNeg (strL "a") (strL "b") = -1 := by
    unfold primary_similarity
    rw [hemb1, hemb2]
    have hm1 : npMeanAxis0 [[1]] = [1] := by
      unfold npMeanAxis0
      norm_num [List.range_succ]
    have hm2 : npMeanAxis0 [[-1]] = [-1] := by
      unfold npMeanAxis0
      norm_num [List.range_succ]
    rw [hm1, hm2]
    unfold cosine_similarity dotL
    norm_num [Real.sqrt_one]
  refine ⟨hcos, by rw [hcos]; norm_num, rfl, ?_⟩
  show round2 (calculate_similarity (fun _ _ => Except.ok (-1)) (strL "a") (strL "b") * 100)
      = -100
  rw [show calculate_similarity (fun _ _ => Except.ok (-1)) (strL "a") (strL "b")
      = -1 from rfl]
  have h : ((-1 : ℚ) * 100) = -1 * 100 * 100 / 100 := by norm_num
  rw [h]
  exact round2_neg100

/-- C3 (amended): the Jaccard fallback always returns a value in
[0, 1]; the primary embedding path returns an unclamped cosine
similarity that can leave [0, 1]; whenever the similarity value used
does lie in [0, 1], every MatchResult satisfies
`0 ≤ match_percentage ≤ 100` and `0 ≤ confidence_score ≤ 100`. -/
theorem claim_C3_amended :
    (∀ t1 t2 : List Char,
        0 ≤ simple_text_similarity t1 t2 ∧ simple_text_similarity t1 t2 ≤ 1)
      ∧ ∀ (primary : List Char → List Char → Except String ℚ)
          (rt jd : List Char) (req : List (List Char)) (rexp : ℤ),
          0 ≤ calculate_similarity primary rt jd →
          calculate_similarity primary rt jd ≤ 1 →
          (0 ≤ (analyze_resume_match primary rt jd req rexp).match_percentage
            ∧ (analyze_resume_match primary rt jd req rexp).match_percentage ≤ 100
            ∧ 0 ≤ (analyze_resume_match primary rt jd req rexp).confidence_score
            ∧ (analyze_resume_match primary rt jd req rexp).confidence_score ≤ 100) := by
  refine ⟨fun t1 t2 => simple_text_similarity_bounds t1 t2, ?_⟩
  intro primary rt jd req rexp h0 h1
  obtain ⟨ho0, ho1⟩ := overall_bounds primary rt jd req rexp h0 h1
  have hm : (analyze_resume_match primary rt jd req rexp).match_percentage
      = round2 (overall_match primary rt jd req rexp) := rfl
  have hc : (analyze_resume_match primary rt jd req rexp).confidence_score
      = round2 (calculate_similarity primary rt jd * 100) := rfl
  rw [hm, hc]
  obtain ⟨hr0, hr1⟩ := round2_bounds _ ho0 ho1
  have hs0 : 0 ≤ calculate_similarity primary rt jd * 100 := by linarith
  have hs1 : calculate_similarity primary rt jd * 100 ≤ 100 := by linarith
  obtain ⟨hc0, hc1⟩ := round2_bounds _ hs0 hs1
  exact ⟨hr0, hr1, hc0, hc1⟩

/-- Witness for C3 (amended) at a concrete oracle returning 1/2. -/
theorem claim_C3_witness :
    (0 : ℚ) ≤ calculate_similarity (fun _ _ => Except.ok (1 / 2)) (strL "r") (strL "j")
      ∧ calculate_similarity (fun _ _ => Except.ok (1 / 2)) (strL "r") (strL "j") ≤ 1
      ∧ 0 ≤ (analyze_resume_match (fun _ _ => Except.ok (1 / 2)) (strL "r") (strL "j")
          [] 3).match_percentage :=
  ⟨by norm_num [calculate_similarity], by norm_num [calculate_similarity],
    (claim_C3_amended.2 (fun _ _ => Except.ok (1 / 2)) (strL "r") (strL "j") [] 3
      (by norm_num [calculate_similarity]) (by norm_num [calculate_similarity])).1⟩

theorem skillHit_iff (obs : List (List Char)) (s : List Char) :
    skillHit (obs.map lowerChars) s = true
      ↔ ∃ o ∈ obs, (pyIn s (lowerChars o) = true ∨ pyIn (lowerChars o) s = true) := by
  unfold skillHit
  simp [List.any_map, List.any_eq_true, Function.comp]

theorem matched_eq (rt : List Char) (req : List (List Char)) :
    (matched_missing rt req).1
      = (req.map lowerChars).filter
          (skillHit ((extract_skills_from_text rt).map lowerChars)) := by
  unfold matched_missing
  rw [skillSplit_eq_filter]

theorem missing_eq (rt : List Char) (req : List (List Char)) :
    (matched_missing rt req).2
      = (req.map lowerChars).filter
          (fun s => ! skillHit ((extract_skills_from_text rt).map lowerChars) s) := by
  unfold matched_missing
  rw [skillSplit_eq_filter]

/-- C4: a required skill (case-folded) lands in `matched_skills` iff
some observed skill extracted from the résumé text contains it or is
contained in it (case-folded bidirectional substring), and in
`missing_skills` iff no observed skill does. -/
theorem claim_C4 (primary : List Char → List Char → Except String ℚ)
    (rt jd : List Char) (req : List (List Char)) (rexp : ℤ)
    (s : List Char) (hs : s ∈ req) :
    (lowerChars s ∈ (analyze_resume_match primary rt jd req rexp).matched_skills
      ↔ ∃ o ∈ extract_skills_from_text rt,
          (pyIn (lowerChars s) (lowerChars o) = true
            ∨ pyIn (lowerChars o) (lowerChars s) = true))
    ∧ (lowerChars s ∈ (analyze_resume_match primary rt jd req rexp).missing_skills
      ↔ ¬ ∃ o ∈ extract_skills_from_text rt,
          (pyIn (lowerChars s) (lowerChars o) = true
            ∨ pyIn (lowerChars o) (lowerChars s) = true)) := by
  have hmem : lowerChars s ∈ req.map lowerChars := List.mem_map_of_mem lowerChars hs
  have h1 : (analyze_resume_match primary rt jd req rexp).matched_skills
      = (matched_missing rt req).1 := rfl
  have h2 : (analyze_resume_match primary rt jd req rexp).missing_skills
      = (matched_missing rt req).2 := rfl
  rw [h1, h2, matched_eq, missing_eq]
  constructor
  · rw [List.mem_filter]
    rw [skillHit_iff (extract_skills_from_text rt) (lowerChars s)]
    constructor
    · rintro ⟨_, h⟩; exact h
    · intro h; exact ⟨hmem, h⟩
  · rw [List.mem_filter]
    constructor
    · rintro ⟨_, h⟩ hex
      rw [← skillHit_iff (extract_skills_from_text rt) (lowerChars s)] at hex
      simp [hex] at h
    · intro h
      have hsk : skillHit ((extract_skills_from_text rt).map lowerChars) (lowerChars s)
          = false := by
        rw [← Bool.not_eq_true]
        intro htrue
        exact h ((skillHit_iff _ _).mp htrue)
      exact ⟨hmem, by simp [hsk]⟩

/-- Witness for C4 at required skill "python" against résumé "python". -/
theorem claim_C4_witness :
    lowerChars (strL "python") ∈ (analyze_resume_match (fun _ _ => Except.ok 0)
      (strL "python") (strL "jd") [strL "python"] 0).matched_skills :=
  ((claim_C4 (fun _ _ => Except.ok 0) (strL "python") (strL "jd") [strL "python"] 0
    (strL "python") (by decide)).1).mpr (by decide)

/-- C5: the skill-match percentage is `matched / required × 100` for a
nonempty required list and 0 for an empty one, and the reported nested
`match_percentage` is its two-decimal rounding. -/
theorem claim_C5 (primary : List Char → List Char → Except String ℚ)
    (rt jd : List Char) (req : List (List Char)) (rexp : ℤ) :
    (req ≠ [] → skill_match_pct rt req
        = ((analyze_resume_match primary rt jd req rexp).matched_skills.length : ℚ)
          / (req.length : ℚ) * 100)
    ∧ (req = [] → skill_match_pct rt req = 0)
    ∧ (analyze_resume_match primary rt jd req rexp).skills_match_percentage
        = round2 (skill_match_pct rt req) := by
  refine ⟨fun h => ?_, fun h => ?_, rfl⟩
  · unfold skill_match_pct
    rw [if_neg h]
    rfl
  · unfold skill_match_pct
    rw [if_pos h]

/-- Witness for C5 on a singleton required list. -/
theorem claim_C5_witness :
    skill_match_pct (strL "python") [strL "python"]
      = ((analyze_resume_match (fun _ _ => Except.ok 0) (strL "python") (strL "jd")
          [strL "python"] 0).matched_skills.length : ℚ)
        / (([strL "python"] : List (List Char)).length : ℚ) * 100 :=
  (claim_C5 (fun _ _ => Except.ok 0) (strL "python") (strL "jd")
    [strL "python"] 0).1 (by decide)

/-- C10: the matched and missing lists partition the case-folded
required skills — each required skill appears in exactly one of the two
lists, and the lengths add up to the number of required skills. -/
theorem claim_C10 (primary : List Char → List Char → Except String ℚ)
    (rt jd : List Char) (req : List (List Char)) (rexp : ℤ) :
    ((analyze_resume_match primary rt jd req rexp).matched_skills.length
        + (analyze_resume_match primary rt jd req rexp).missing_skills.length
      = req.length)
    ∧ ∀ s ∈ req,
        ((lowerChars s ∈ (analyze_resume_match primary rt jd req rexp).matched_skills
            ∧ lowerChars s ∉ (analyze_resume_match primary rt jd req rexp).missing_skills)
          ∨ (lowerChars s ∉ (analyze_resume_match primary rt jd req rexp).matched_skills
            ∧ lowerChars s ∈ (analyze_resume_match primary rt jd req rexp).missing_skills)) := by
  have h1 : (analyze_resume_match primary rt jd req rexp).matched_skills
      = (matched_missing rt req).1 := rfl
  have h2 : (analyze_resume_match primary rt jd req rexp).missing_skills
      = (matched_missing rt req).2 := rfl
  rw [h1, h2]
  constructor
  · unfold matched_missing
    have := skillSplit_length (req.map lowerChars)
      ((extract_skills_from_text rt).map lowerChars)
    simpa using this
  · intro s hs
    have hmem : lowerChars s ∈ req.map lowerChars := List.mem_map_of_mem lowerChars hs
    rw [matched_eq, missing_eq]
    by_cases hsk : skillHit ((extract_skills_from_text rt).map lowerChars) (lowerChars s)
      = true
    · left
      refine ⟨List.mem_filter.mpr ⟨hmem, hsk⟩, fun hcon => ?_⟩
      obtain ⟨_, hbad⟩ := List.mem_filter.mp hcon
      simp [hsk] at hbad
    · right
      rw [Bool.not_eq_true] at hsk
      refine ⟨fun hcon => ?_, List.mem_filter.mpr ⟨hmem, by simp [hsk]⟩⟩
      obtain ⟨_, hbad⟩ := List.mem_filter.mp hcon
      simp [hsk] at hbad

/-- Witness for C10: "java" required but not observed lands in exactly
the missing list. -/
theorem claim_C10_witness :
    (lowerChars (strL "java") ∈ (analyze_resume_match (fun _ _ => Except.ok 0)
        (strL "python") (strL "jd") [strL "python", strL "java"] 0).matched_skills
      ∧ lowerChars (strL "java") ∉ (analyze_resume_match (fun _ _ => Except.ok 0)
          (strL "python") (strL "jd") [strL "python", strL "java"] 0).missing_skills)
    ∨ (lowerChars (strL "java") ∉ (analyze_resume_match (fun _ _ => Except.ok 0)
        (strL "python") (strL "jd") [strL "python", strL "java"] 0).matched_skills
      ∧ lowerChars (strL "java") ∈ (analyze_resume_match (fun _ _ => Except.ok 0)
          (strL "python") (strL "jd") [strL "python", strL "java"] 0).missing_skills) :=
  (claim_C10 (fun _ _ => Except.ok 0) (strL "python") (strL "jd")
    [strL "python", strL "java"] 0).2 (strL "java") (by decide)


theorem pass_fold_spec (ps : List RE) (tl : List Char) (a : ℕ) :
    ps.foldl (fun acc p => (findAllCaps p tl).foldl (fun x m =>
        match pyInt m with
        | .ok y => max x y
        | .error _ => x) acc) a
      = (ps.flatMap (fun p => (findAllCaps p tl).filterMap
          (fun m => (pyInt m).toOption))).foldl max a := by
  induction ps generalizing a with
  | nil => rfl
  | cons p rest ih =>
    rw [List.foldl_cons, inner_fold_spec, ih, List.flatMap_cons, List.foldl_append]

theorem pass_fold_clamped_spec (ps : List RE) (tl : List Char) (a : ℕ) :
    ps.foldl (fun acc p => (findAllCaps p tl).foldl (fun x m =>
        match pyInt m with
        | .ok y => if 1 ≤ y ∧ y ≤ 50 then max x y else x
        | .error _ => x) acc) a
      = (ps.flatMap (fun p => ((findAllCaps p tl).filterMap
          (fun m => (pyInt m).toOption)).filter
            (fun y => decide (1 ≤ y) && decide (y ≤ 50)))).foldl max a := by
  induction ps generalizing a with
  | nil => rfl
  | cons p rest ih =>
    rw [List.foldl_cons, inner_fold_clamped_spec, ih, List.flatMap_cons,
      List.foldl_append]


/-- C6: the extracted experience is the maximum of (a) all integers
captured by the seven specific patterns (unrestricted) and (b) all
integers captured by the broad "N(+) years" patterns restricted to
[1, 50], defaulting to 0; "5+ years of experience in Python" yields 5
and text with no numeric-experience phrasing yields 0. -/
theorem claim_C6 :
    (∀ t : List Char, extract_experience_years t
        = max
          ((experience_patterns.flatMap (fun p =>
              (findAllCaps p (lowerChars t)).filterMap
                (fun m => (pyInt m).toOption))).foldl max 0)
          ((simple_patterns.flatMap (fun p =>
              ((findAllCaps p (lowerChars t)).filterMap
                (fun m => (pyInt m).toOption)).filter
                  (fun y => decide (1 ≤ y) && decide (y ≤ 50)))).foldl max 0))
    ∧ extract_experience_years (strL "5+ years of experience in Python") = 5
    ∧ extract_experience_years
        (strL "The candidate writes compilers and proves theorems.") = 0 := by
  refine ⟨fun t => ?_, by decide, by decide⟩
  unfold extract_experience_years
  dsimp only
  rw [pass_fold_clamped_spec, pass_fold_spec, foldl_max_shift]

/-- C7: the document extractor fails with `emptyInput` exactly on a
zero-length payload (even when the extension is unsupported, since the
check precedes dispatch), and for a non-empty payload fails with
`unsupportedFormat` exactly when the case-folded extension is none of
pdf/doc/docx/txt — for every behaviour of the three format parsers,
i.e. before any parsing of the bytes. -/
theorem claim_C7 (px dx tx : List UInt8 → Except (List Char) (List Char))
    (c : List UInt8) (f : List Char) :
    (extract_text_from_file px dx tx c f = Except.error ExtractErr.emptyInput ↔ c = [])
    ∧ (c ≠ [] →
        (extract_text_from_file px dx tx c f
            = Except.error (ExtractErr.unsupportedFormat (file_extension f))
          ↔ (file_extension f ≠ strL "pdf" ∧ file_extension f ≠ strL "doc"
              ∧ file_extension f ≠ strL "docx" ∧ file_extension f ≠ strL "txt"))) := by
  by_cases hc : c = []
  · constructor
    · simp [extract_text_from_file, hc]
    · intro h; exact absurd hc h
  · unfold extract_text_from_file
    rw [if_neg hc]
    dsimp only
    constructor
    · constructor
      · intro h
        exfalso
        split_ifs at h with h1 h2 h3
        · cases hr : px c <;> rw [hr] at h <;> simp [Except.mapError] at h
          split_ifs at h <;> simp at h
        · cases hr : dx c <;> rw [hr] at h <;> simp [Except.mapError] at h
          split_ifs at h <;> simp at h
        · cases hr : tx c <;> rw [hr] at h <;> simp [Except.mapError] at h
          split_ifs at h <;> simp at h
        · simp at h
      · intro h; exact absurd h hc
    · intro _
      constructor
      · intro h
        split_ifs at h with h1 h2 h3
        · cases hr : px c <;> rw [hr] at h <;> simp [Except.mapError] at h
          split_ifs at h <;> simp at h
        · cases hr : dx c <;> rw [hr] at h <;> simp [Except.mapError] at h
          split_ifs at h <;> simp at h
        · cases hr : tx c <;> rw [hr] at h <;> simp [Except.mapError] at h
          split_ifs at h <;> simp at h
        · push_neg at h2
          exact ⟨h1, h2.1, h2.2, h3⟩
      · rintro ⟨h1, h2, h3, h4⟩
        rw [if_neg h1, if_neg (by tauto), if_neg h4]

/-- Witness for C7: a one-byte `resume.xlsx` upload is rejected as
`unsupportedFormat`, and a zero-byte `resume.pdf` as `emptyInput`. -/
theorem claim_C7_witness :
    (extract_text_from_file (fun _ => Except.ok (strL "t"))
        (fun _ => Except.ok (strL "t")) (fun _ => Except.ok (strL "t"))
        [65] (strL "resume.xlsx")
      = Except.error (ExtractErr.unsupportedFormat (file_extension (strL "resume.xlsx"))))
    ∧ (extract_text_from_file (fun _ => Except.ok (strL "t"))
        (fun _ => Except.ok (strL "t")) (fun _ => Except.ok (strL "t"))
        [] (strL "resume.pdf")
      = Except.error ExtractErr.emptyInput) :=
  ⟨((claim_C7 (fun _ => Except.ok (strL "t")) (fun _ => Except.ok (strL "t"))
      (fun _ => Except.ok (strL "t")) [65] (strL "resume.xlsx")).2
        (by decide)).mpr (by decide),
   (claim_C7 (fun _ => Except.ok (strL "t")) (fun _ => Except.ok (strL "t"))
      (fun _ => Except.ok (strL "t")) [] (strL "resume.pdf")).1.mpr rfl⟩

/-- C8: the match engine is total — with exception propagation made
explicit, `analyze_resume_match` always returns `Except.ok` of a
MatchResult, and a failing primary similarity backend is absorbed into
the Jaccard fallback rather than propagated. -/
theorem claim_C8 :
    (∀ (primary : List Char → List Char → Except String ℚ) (t1 t2 : List Char)
        (e : String),
        primary t1 t2 = Except.error e →
        calculate_similarity primary t1 t2 = simple_text_similarity t1 t2)
    ∧ (∀ (primary : List Char → List Char → Except String ℚ)
        (rt jd : List Char) (req : List (List Char)) (rexp : ℤ),
        analyze_resume_matchE primary rt jd req rexp
          = Except.ok (analyze_resume_match primary rt jd req rexp)) := by
  constructor
  · intro primary t1 t2 e h
    unfold calculate_similarity
    rw [h]
  · intro primary rt jd req rexp
    unfold analyze_resume_matchE calculate_similarityE
    cases h : primary rt jd <;> simp only [h] <;> rfl

/-- Witness for C8 with an always-failing backend. -/
theorem claim_C8_witness :
    calculate_similarity (fun _ _ => Except.error "backend unavailable")
        (strL "a b") (strL "b c")
      = simple_text_similarity (strL "a b") (strL "b c") :=
  claim_C8.1 (fun _ _ => Except.error "backend unavailable")
    (strL "a b") (strL "b c") "backend unavailable" rfl

theorem if_skill_eq_some (sk s : List Char) :
    ((if 2 < sk.length ∧ sk.length < 50 then some (pyTitle sk) else none) = some s)
      ↔ (3 ≤ sk.length ∧ sk.length ≤ 49 ∧ s = pyTitle sk) := by
  split_ifs with h
  · rw [Option.some_inj]
    constructor
    · intro he
      exact ⟨by omega, by omega, he.symm⟩
    · rintro ⟨_, _, rfl⟩
      rfl
  · constructor
    · intro he
      cases he
    · rintro ⟨h1, h2, _⟩
      exact absurd ⟨by omega, by omega⟩ h

/-- C9 counterexample: on `"skills: python • java"` the source keeps
the whole candidate `"Python • Java"` because its separator class holds
the mojibake characters `â`, `€`, `¢` rather than the bullet `•`; the
claimed bullet-splitting behaviour (`extract_skills_claimed`) would
instead produce `"Python"` — the two sets disagree in both directions. -/
theorem claim_C9_counterexample :
    (strL "Python • Java" ∈ extract_skills_from_text (strL "skills: python • java")
      ∧ strL "Python • Java" ∉ extract_skills_claimed (strL "skills: python • java"))
    ∧ (strL "Python" ∈ extract_skills_claimed (strL "skills: python • java")
      ∧ strL "Python" ∉ extract_skills_from_text (strL "skills: python • java")) := by
  decide

/-- C9 (amended): a string is in the extracted skill set iff it is a
stripped catalogue match or arises from a heading capture (the heading
pattern matches its token anywhere in the lowercased text and takes the
run of characters up to a period or newline) split on commas,
semicolons, pipes, dashes, newlines and the three mojibake characters
`â`/`€`/`¢` (not the bullet), stripped, of length 3–49, title-cased. -/
theorem claim_C9_amended (t : List Char) (s : List Char) :
    s ∈ extract_skills_from_text t
      ↔ ((∃ p ∈ skill_patterns, ∃ m ∈ findAll p t, s = pyStrip m)
        ∨ (∃ sec ∈ findAllCaps headingRE (lowerChars t),
            ∃ piece ∈ splitCls sepCls sec,
              3 ≤ (pyStrip piece).length ∧ (pyStrip piece).length ≤ 49
                ∧ s = pyTitle (pyStrip piece))) := by
  unfold extract_skills_from_text
  dsimp only
  rw [setList_mem, List.mem_append]
  constructor
  · rintro (hcat | hhead)
    · left
      obtain ⟨p, hp, hx⟩ := List.mem_flatMap.mp hcat
      obtain ⟨m, hm, rfl⟩ := List.mem_map.mp hx
      exact ⟨p, hp, m, hm, rfl⟩
    · right
      obtain ⟨sec, hsec, hx⟩ := List.mem_flatMap.mp hhead
      obtain ⟨sk, hsk, hif⟩ := List.mem_filterMap.mp hx
      obtain ⟨piece, hpiece, rfl⟩ := List.mem_map.mp hsk
      obtain ⟨hb1, hb2, rfl⟩ := (if_skill_eq_some _ _).mp hif
      exact ⟨sec, hsec, piece, hpiece, hb1, hb2, rfl⟩
  · rintro (⟨p, hp, m, hm, rfl⟩ | ⟨sec, hsec, piece, hpiece, hb1, hb2, rfl⟩)
    · left
      exact List.mem_flatMap.mpr ⟨p, hp, List.mem_map.mpr ⟨m, hm, rfl⟩⟩
    · right
      refine List.mem_flatMap.mpr ⟨sec, hsec, List.mem_filterMap.mpr
        ⟨pyStrip piece, List.mem_map.mpr ⟨piece, hpiece, rfl⟩, ?_⟩⟩
      exact (if_skill_eq_some _ _).mpr ⟨hb1, hb2, rfl⟩

end ResumeAnalyzer
